import Mathlib

/-!
Verification development for the matroska-metadata streaming parser.

The definitions below are a shallow embedding of the source files
(src/index.js and the utility base class).  Byte chunks are lists of
naturals, EBML elements are a small inductive tree, and the stateful
session object is explicit state passing.  External collaborators (the
low-level EBML tag decoder, DEFLATE, byte-to-text decoding, streams)
are modelled at their interface boundary: the decoder output is taken
as a list of elements, and the set of recognized one-byte element
identity codes is a boolean-predicate parameter.
-/

namespace MatroskaMeta

/-! EBML element ids as used by the ebml-iterator enum. -/

def ClusterId : Nat := 0x1F43B675
def SegmentId : Nat := 0x18538067
def SeekHeadId : Nat := 0x114D9B74
def InfoId : Nat := 0x1549A966
def TracksId : Nat := 0x1654AE6B
def ChaptersId : Nat := 0x1043A770
def AttachmentsId : Nat := 0x1941A469
def TrackEntryId : Nat := 0xAE
def TrackTypeId : Nat := 0x83
def TrackNumberId : Nat := 0xD7
def CodecIDId : Nat := 0x86
def LanguageId : Nat := 0x22B59C
def NameId : Nat := 0x536E
def CodecPrivateId : Nat := 0x63A2
def ContentEncodingsId : Nat := 0x6D80
def ContentEncodingId : Nat := 0x6240
def ContentCompressionId : Nat := 0x5034
def EditionEntryId : Nat := 0x45B9
def EditionFlagDefaultId : Nat := 0x45DB
def ChapterAtomId : Nat := 0xB6
def ChapterTimeStartId : Nat := 0x91
def ChapterTimeEndId : Nat := 0x92
def ChapterFlagHiddenId : Nat := 0x98
def ChapterDisplayId : Nat := 0x80
def ChapStringId : Nat := 0x85
def ChapLanguageId : Nat := 0x437C
def FileNameId : Nat := 0x466E
def FileMimeTypeId : Nat := 0x4660
def FileDataId : Nat := 0x465C
def DurationId : Nat := 0x4489
def TimecodeScaleId : Nat := 0x2AD7B1
def TimecodeId : Nat := 0xE7
def BlockGroupId : Nat := 0xA0
def BlockId : Nat := 0xA1
def BlockDurationId : Nat := 0x9B

/-! Stream synchronizer: the unstable-state scan of parseStream.

The JS loop is:
  for (let i = 0; i < chunk.length - 12; i++) {
    if (chunk[i] === 0x1f && chunk[i+1] === 0x43 && chunk[i+2] === 0xb6 && chunk[i+3] === 0x75) {
      const len = 8 - Math.floor(Math.log2(chunk[i + 4]))
      if (EbmlTagId[chunk[i + 4 + len]]) { stable = true; ... decode from i ... }
    }
  }
The reverse enum lookup EbmlTagId[byte] is external (ebml-iterator);
it is modelled by the predicate parameter validTag.  When
chunk[i + 4] = 0, Math.log2 yields -Infinity, the index becomes
Infinity, chunk[Infinity] is undefined and EbmlTagId[undefined] is
falsy, so the candidate fails; this is the b = 0 branch below. -/

/-- Test for the four-byte cluster marker 1F 43 B6 75 at position i. -/
def markerAt (chunk : List Nat) (i : Nat) : Bool :=
  chunk.getD i 0 == 0x1f && chunk.getD (i+1) 0 == 0x43 &&
  chunk.getD (i+2) 0 == 0xb6 && chunk.getD (i+3) 0 == 0x75

/-- Length of the cluster size field, computed from the byte following
the marker: len = 8 - floor(log2(b)). -/
def sizeFieldLen (b : Nat) : Nat := 8 - Nat.log2 b

/-- Second half of the double check: the size-length byte is nonzero
and the byte immediately after the size field is a recognized
element-identity code. -/
def headerCheck (validTag : Nat → Bool) (chunk : List Nat) (i : Nat) : Bool :=
  let b := chunk.getD (i+4) 0
  b != 0 && validTag (chunk.getD (i + 4 + sizeFieldLen b) 0)

/-- The full candidate test performed at position i of a chunk. -/
def clusterCheck (validTag : Nat → Bool) (chunk : List Nat) (i : Nat) : Bool :=
  markerAt chunk i && headerCheck validTag chunk i

/-- Candidate search of the unstable state: the first position
i < chunk.length - 12 that passes the double check; none means the
state stays unstable for this chunk (the loop bound is the JS
condition i < chunk.length - 12, with natural subtraction matching the
empty loop for short chunks).  The scan is total and returns an
option, so no error can surface from a failed candidate. -/
def findSync (validTag : Nat → Bool) (chunk : List Nat) : Option Nat :=
  (List.range (chunk.length - 12)).find? (clusterCheck validTag chunk)

/-- C2: while unstable, the synchronizer transitions to stable at a
position only when that position starts with the four-byte cluster
marker, the size-field length computed from the following byte is
usable, and the byte immediately after the size field is a recognized
element-identity code; when no position passes this double check the
state remains unstable (findSync is total, so no error surfaces). -/
theorem findSync_double_check (validTag : Nat → Bool) (chunk : List Nat) :
    (∀ i, findSync validTag chunk = some i →
      markerAt chunk i = true ∧ chunk.getD (i+4) 0 ≠ 0 ∧
      validTag (chunk.getD (i + 4 + sizeFieldLen (chunk.getD (i+4) 0)) 0) = true) ∧
    ((∀ i < chunk.length - 12, clusterCheck validTag chunk i = false) →
      findSync validTag chunk = none) := by
  constructor
  · intro i hi
    have h := List.find?_some hi
    simp only [clusterCheck, headerCheck, markerAt, Bool.and_eq_true, bne_iff_ne,
      ne_eq] at h
    refine ⟨?_, ?_, ?_⟩
    · simp only [markerAt, Bool.and_eq_true]
      exact ⟨⟨⟨h.1.1.1.1, h.1.1.1.2⟩, h.1.1.2⟩, h.1.2⟩
    · exact h.2.1
    · exact h.2.2
  · intro h
    rw [findSync, List.find?_eq_none]
    intro i hi
    have hlt : i < chunk.length - 12 := List.mem_range.mp hi
    simp [h i hlt]

/-- Witness for C2: a chunk whose only marker occurrence sits inside a
payload with a zero size byte fails the double check and leaves the
state unstable. -/
theorem findSync_double_check_witness :
    findSync (fun b => b == 0xA1)
      [0x1f, 0x43, 0xb6, 0x75, 0, 0, 0, 0, 0, 0, 0, 0, 0, 0, 0, 0] = none := by
  exact (findSync_double_check (fun b => b == 0xA1)
    [0x1f, 0x43, 0xb6, 0x75, 0, 0, 0, 0, 0, 0, 0, 0, 0, 0, 0, 0]).2 (by decide)

/-- C10: candidate positions within the final 12 bytes of a chunk are
never examined; a chunk whose marker occurrences all begin at an index
at or past chunk.length - 12 leaves the synchronizer unstable, and
nothing is decoded from that chunk. -/
theorem findSync_tail_window (validTag : Nat → Bool) (chunk : List Nat)
    (h : ∀ i < chunk.length, markerAt chunk i = true → chunk.length ≤ i + 12) :
    findSync validTag chunk = none := by
  rw [findSync, List.find?_eq_none]
  intro i hi
  have hlt : i < chunk.length - 12 := List.mem_range.mp hi
  have hlen : i < chunk.length := by omega
  intro hc
  have hm : markerAt chunk i = true := by
    have := hc
    simp only [clusterCheck, Bool.and_eq_true] at this
    exact this.1
  have := h i hlen hm
  omega

/-- Witness for C10: a 16-byte chunk whose only marker begins at index
4 = chunk.length - 12 is not examined, and the state stays unstable. -/
theorem findSync_tail_window_witness :
    findSync (fun b => b == 0xA1)
      [0, 0, 0, 0, 0x1f, 0x43, 0xb6, 0x75, 0x81, 0xA1, 0, 0, 0, 0, 0, 0] = none := by
  exact findSync_tail_window (fun b => b == 0xA1)
    [0, 0, 0, 0, 0x1f, 0x43, 0xb6, 0x75, 0x81, 0xA1, 0, 0, 0, 0, 0, 0]
    (by decide)

/-! Element model.  The external tag decoder produces a tree of typed,
identified elements; data values are numeric or string after
processTags has stringified string-typed data. -/

/-- Decoded element data: a number or a string. -/
inductive EData where
  | n (v : Rat)
  | s (v : String)
deriving DecidableEq

/-- Decoded EBML element: identity code, optional data, child
elements, absolute start offset and header length metadata. -/
inductive Elem where
  | mk (eid : Nat) (dat : Option EData) (children : List Elem)
       (absStart : Nat) (headerLen : Nat)

def Elem.eid : Elem → Nat
  | .mk i _ _ _ _ => i

def Elem.dat : Elem → Option EData
  | .mk _ d _ _ _ => d

def Elem.children : Elem → List Elem
  | .mk _ _ c _ _ => c

def Elem.absStart : Elem → Nat
  | .mk _ _ _ a _ => a

def Elem.headerLen : Elem → Nat
  | .mk _ _ _ _ h => h

/-- The JS child.absoluteStart = v assignment. -/
def Elem.withAbsStart : Elem → Nat → Elem
  | .mk i d c _ h, a => .mk i d c a h

/-- Source getChild: first child with a matching identity. -/
def getChild (e : Elem) (tag : Nat) : Option Elem :=
  e.children.find? (fun c => c.eid == tag)

/-- Source getData: data of the first matching child. -/
def getData (e : Elem) (tag : Nat) : Option EData :=
  (getChild e tag).bind Elem.dat

/-- JS truthiness of a possibly-absent element data value: undefined,
0 and the empty string are falsy. -/
def truthy : Option EData → Bool
  | none => false
  | some (.n v) => v != 0
  | some (.s str) => str != ""

/-! Track registry (getTracks body). -/

/-- Subtitle track descriptor as built by getTracks. -/
structure Track where
  number : Option Rat
  language : Option EData
  type : String
  name : Option String
  header : Option String
  compressed : Bool
deriving DecidableEq

/-! Character-level models of the JS string operations used by the
source (split on a one-character separator, join, startsWith,
substring drop, lower-casing), written on the character list so they
are kernel-computable. -/

/-- JS String.prototype.split with a one-character separator, on the
character list: the empty string splits to one empty field, and a
trailing separator yields a trailing empty field. -/
def splitChar (sep : Char) : List Char → List (List Char)
  | [] => [[]]
  | c :: rest =>
    let r := splitChar sep rest
    if c = sep then [] :: r
    else
      match r with
      | [] => [[c]]
      | h :: t => (c :: h) :: t

/-- JS split on a string. -/
def jsSplit (sep : Char) (s : String) : List String :=
  (splitChar sep s.data).map String.mk

/-- JS Array.prototype.join with a one-character separator. -/
def jsJoin (sep : Char) : List String → String
  | [] => ""
  | [x] => x
  | x :: rest => x ++ String.singleton sep ++ jsJoin sep rest

/-- JS String.prototype.startsWith. -/
def jsStartsWith (p s : String) : Bool :=
  p.data.isPrefixOf s.data

/-- JS String.prototype.substring(n): drop the first n characters. -/
def jsDrop (n : Nat) (s : String) : String :=
  String.mk (s.data.drop n)

/-- JS String.prototype.toLowerCase, restricted to the ASCII range
handled by Char.toLower. -/
def jsToLower (s : String) : String :=
  String.mk (s.data.map Char.toLower)

/-- CodecID string of a track entry; getData(entry, CodecID) falls
back to the empty string when absent (the JS source does codecID ||
'').  CodecID is a string-typed element, so only string data is
modelled. -/
def codecIdOf (entry : Elem) : String :=
  match getData entry CodecIDId with
  | some (.s str) => str
  | _ => ""

/-- Track descriptor built from one kept track entry.  Name is only
attached when truthy (a nonempty string); the codec-private header is
the text decoding of that element (byte-to-text decoding is external,
the model stores the decoded text).  The compressed flag follows the
nested ContentEncodings / ContentEncoding / ContentCompression
search. -/
def trackOf (entry : Elem) (codecID : String) : Track :=
  { number := match getData entry TrackNumberId with
      | some (.n v) => some v
      | _ => none
    language := getData entry LanguageId
    type := jsToLower (jsDrop 7 codecID)
    name := match getData entry NameId with
      | some (.s str) => if str == "" then none else some str
      | _ => none
    header := match getData entry CodecPrivateId with
      | some (.s str) => some str
      | _ => none
    compressed := entry.children.any (fun c =>
      c.eid == ContentEncodingsId &&
      c.children.any (fun cc =>
        cc.eid == ContentEncodingId && (getChild cc ContentCompressionId).isSome)) }

/-- Insertion into the subtitleTracks map: a Map.set keyed by track
number keeps the original insertion position on overwrite and appends
otherwise. -/
def mapSet (l : List Track) (t : Track) : List Track :=
  if l.any (fun x => x.number == t.number) then
    l.map (fun x => if x.number == t.number then t else x)
  else l ++ [t]

/-- Body of the getTracks loop: keep TrackEntry children whose track
type is 0x11 and whose codec identifier starts with S_TEXT, and
collect them in the subtitleTracks map. -/
def subtitleTracksOf (entries : List Elem) : List Track :=
  entries.foldl (fun acc entry =>
    if entry.eid == TrackEntryId then
      if getData entry TrackTypeId == some (EData.n 0x11) then
        let codecID := codecIdOf entry
        if jsStartsWith "S_TEXT" codecID then mapSet acc (trackOf entry codecID)
        else acc
      else acc
    else acc) []

/-- Result of getTracks given the fetched Tracks element: an absent
element or an element with no children yields the empty list. -/
def getTracksResult (tracksElem : Option Elem) : List Track :=
  match tracksElem with
  | none => []
  | some t => if t.children.isEmpty then [] else subtitleTracksOf t.children

/-! Block extractor (handleBlockGroup). -/

/-- The SSA_TYPES set of the source. -/
def SSA_TYPES : List String := ["ssa", "ass"]

/-- The SSA_KEYS table of the source; the field-assignment loop runs
over indexes 1..7 (ass) or 2..7 (ssa), so readOrder (index 0) is
never assigned and text (index 8) is set from the joined tail. -/
def SSA_KEYS : List String :=
  ["readOrder", "layer", "style", "name", "marginL", "marginR", "marginV",
   "effect", "text"]

/-- Block sub-element of a block group as exposed by the external
decoder: declared track number, relative timecode value, and the text
decoding of the (possibly decompressed) payload.  Payload
decompression and byte-to-text decoding are external services; the
model receives their output. -/
structure Block where
  track : Rat
  value : Rat
  payloadText : String
deriving DecidableEq

/-- Subtitle event as assembled by handleBlockGroup.  A block group
without a BlockDuration child gets duration none (the JS value is
NaN). -/
structure Subtitle where
  text : String
  time : Rat
  duration : Option Rat
  readOrder : Option String
  layer : Option String
  style : Option String
  name : Option String
  marginL : Option String
  marginR : Option String
  marginV : Option String
  effect : Option String
deriving DecidableEq

/-- handleBlockGroup: none models the silent discard (no block child,
or the block's track is not a registered subtitle track); some is the
emitted subtitle event.  The SSA branch splits the text on commas,
assigns SSA_KEYS[i] := values[i] for i from 2 (ssa) or 1 (ass) up to
7, and rejoins fields 8 onward as the final text. -/
def handleBlockGroup (tracks : List Track) (block : Option Block)
    (blockDuration : Option Rat) (timecodeScale ctc : Rat) : Option Subtitle :=
  match block with
  | none => none
  | some b =>
    match tracks.find? (fun t => t.number == some b.track) with
    | none => none
    | some track =>
      let text := b.payloadText
      let time := (b.value + ctc) * timecodeScale
      let dur := blockDuration.map (fun d => d * timecodeScale)
      if SSA_TYPES.contains track.type then
        let values := jsSplit ',' text
        some { text := jsJoin ',' (values.drop 8)
               time := time
               duration := dur
               readOrder := none
               layer := if track.type == "ssa" then none else values.get? 1
               style := values.get? 2
               name := values.get? 3
               marginL := values.get? 4
               marginR := values.get? 5
               marginV := values.get? 6
               effect := values.get? 7 }
      else
        some { text := text, time := time, duration := dur,
               readOrder := none, layer := none, style := none, name := none,
               marginL := none, marginR := none, marginV := none, effect := none }

/-- C1: for a block group whose block belongs to a registered subtitle
track, the emitted event has time (blockRelativeTime +
currentClusterTimecode) * timecodeScale and duration
blockDurationUnits * timecodeScale. -/
theorem handleBlockGroup_time_duration (tracks : List Track) (b : Block)
    (dur timecodeScale ctc : Rat) (track : Track)
    (h : tracks.find? (fun t => t.number == some b.track) = some track) :
    ∃ s, handleBlockGroup tracks (some b) (some dur) timecodeScale ctc = some s ∧
      s.time = (b.value + ctc) * timecodeScale ∧
      s.duration = some (dur * timecodeScale) := by
  by_cases hs : track.type ∈ SSA_TYPES
  · simp [handleBlockGroup, h, hs]
  · simp [handleBlockGroup, h, hs]

def c1Track : Track :=
  { number := some 1, language := none, type := "utf8", name := none,
    header := none, compressed := false }

def c1Block : Block := { track := 1, value := 50, payloadText := "hi" }

/-- Witness for C1, with the numbers of the spec example: timecodeScale
1, cluster timecode 1000, relative time 50, duration 40 yields time
1050 and duration 40. -/
theorem handleBlockGroup_time_duration_witness :
    ∃ s, handleBlockGroup [c1Track] (some c1Block) (some 40) 1 1000 = some s ∧
      s.time = 1050 ∧ s.duration = some 40 := by
  obtain ⟨s, hs, ht, hd⟩ :=
    handleBlockGroup_time_duration [c1Track] c1Block 40 1 1000 c1Track (by rfl)
  refine ⟨s, hs, ?_, ?_⟩
  · rw [ht]; show ((50 : Rat) + 1000) * 1 = 1050; norm_num
  · rw [hd]; norm_num

/-- C5: for scriptable-subtitle tracks the decoded text is split on
commas; the read-order field is never populated, the layer field is
skipped exactly for the ssa variant, the remaining structured fields
take values[2] through values[7], and fields 9 onward are rejoined on
commas as the final text. -/
theorem handleBlockGroup_ssa_split (tracks : List Track) (b : Block)
    (blockDuration : Option Rat) (timecodeScale ctc : Rat) (track : Track)
    (h : tracks.find? (fun t => t.number == some b.track) = some track)
    (hssa : track.type = "ass" ∨ track.type = "ssa") :
    ∃ s, handleBlockGroup tracks (some b) blockDuration timecodeScale ctc = some s ∧
      (let values := jsSplit ',' b.payloadText
       s.text = jsJoin ',' (values.drop 8) ∧
       s.readOrder = none ∧
       s.layer = (if track.type = "ssa" then none else values.get? 1) ∧
       s.style = values.get? 2 ∧ s.name = values.get? 3 ∧
       s.marginL = values.get? 4 ∧ s.marginR = values.get? 5 ∧
       s.marginV = values.get? 6 ∧ s.effect = values.get? 7) := by
  rcases hssa with h1 | h1 <;> simp [handleBlockGroup, h, h1, SSA_TYPES]

def c5TrackAss : Track :=
  { number := some 1, language := none, type := "ass", name := none,
    header := none, compressed := false }

def c5TrackSsa : Track :=
  { number := some 1, language := none, type := "ssa", name := none,
    header := none, compressed := false }

def c5Block : Block :=
  { track := 1, value := 0, payloadText := "0,1,Default,,0,0,0,,Hello, world" }

/-- Witness for C5, the example of the spec: the input
0,1,Default,,0,0,0,,Hello, world with subtype ass yields style Default
and final text Hello, world; with subtype ssa the layer field stays
unassigned (the assignment start shifts by one position) and the other
fields keep the same indices. -/
theorem handleBlockGroup_ssa_split_witness :
    (∃ s, handleBlockGroup [c5TrackAss] (some c5Block) none 1 0 = some s ∧
      s.style = some "Default" ∧ s.text = "Hello, world" ∧
      s.layer = some "1") ∧
    (∃ s, handleBlockGroup [c5TrackSsa] (some c5Block) none 1 0 = some s ∧
      s.style = some "Default" ∧ s.text = "Hello, world" ∧
      s.layer = none) := by
  constructor
  · obtain ⟨s, hs, hrest⟩ :=
      handleBlockGroup_ssa_split [c5TrackAss] c5Block none 1 0 c5TrackAss
        (by decide) (Or.inl (by decide))
    simp only at hrest
    obtain ⟨htext, _, hlayer, hstyle, _⟩ := hrest
    refine ⟨s, hs, ?_, ?_, ?_⟩
    · rw [hstyle]; decide
    · rw [htext]; decide
    · rw [hlayer]; decide
  · obtain ⟨s, hs, hrest⟩ :=
      handleBlockGroup_ssa_split [c5TrackSsa] c5Block none 1 0 c5TrackSsa
        (by decide) (Or.inr (by decide))
    simp only at hrest
    obtain ⟨htext, _, hlayer, hstyle, _⟩ := hrest
    refine ⟨s, hs, ?_, ?_, ?_⟩
    · rw [hstyle]; decide
    · rw [htext]; decide
    · rw [hlayer]; decide

/-! Container navigator: seek-head resolution (readSeekHead).

A transformed head is a JS object built by iterating the Seek children
of one SeekHead element; the name resolution of SeekID data through
the external enum is abstracted by taking entries as already-named
(name, position) pairs.  Object assignment semantics: a later entry
with the same name overwrites the earlier one. -/

/-- JS object built from assignments in order, later assignment wins. -/
def buildHead (entries : List (String × Nat)) : String → Option Nat :=
  entries.foldl (fun f p => fun k => if k == p.1 then some p.2 else f k)
    (fun _ => none)

/-- readSeekHead over the chain of seek-head elements reachable from
the first one: when the transformed head holds a SeekHead key the next
head of the chain is resolved recursively and merged underneath via
the spread of the source, spread second then spread first, so the
first-read head wins on collision. -/
def readSeekHead : List (List (String × Nat)) → String → Option Nat
  | [] => fun _ => none
  | h :: rest =>
    let t := buildHead h
    if (t "SeekHead").isSome then
      fun k => (t k).or (readSeekHead rest k)
    else t

/-- C3: when the first seek head references a second one, the resolved
index is the merge of both, and every key present in both resolves to
the offset stored in the first-read head. -/
theorem readSeekHead_first_wins (h1 h2 : List (String × Nat))
    (href : (buildHead h1 "SeekHead").isSome = true) :
    (∀ k, readSeekHead [h1, h2] k = (buildHead h1 k).or (readSeekHead [h2] k)) ∧
    (∀ k v1 v2, buildHead h1 k = some v1 → buildHead h2 k = some v2 →
      readSeekHead [h1, h2] k = some v1) := by
  constructor
  · intro k
    simp [readSeekHead, href]
  · intro k v1 v2 hv1 _
    simp [readSeekHead, href, hv1]

/-- Witness for C3: two concrete chained heads with the overlapping
key Tracks resolve to the offset of the first head. -/
theorem readSeekHead_first_wins_witness :
    readSeekHead [[("SeekHead", 4242), ("Tracks", 10)],
      [("Tracks", 99), ("Cues", 7)]] "Tracks" = some 10 := by
  exact (readSeekHead_first_wins [("SeekHead", 4242), ("Tracks", 10)]
    [("Tracks", 99), ("Cues", 7)] (by decide)).2 "Tracks" 10 99
    (by decide) (by decide)

/-! Container navigator: segment resolution (getSegment).

The source is
  const segment = await this.readUntilTag(this.getFileStream(), EbmlTagId.Segment, false)
  if (!segment) return
  this.segmentStart = segment.absoluteStart + segment.tagHeaderLength
readUntilTag returns the first decoded element with the sought
identity, or null when the input ends first.  The input is taken as
the list of elements the external decoder produces for the stream. -/

/-- First element of the stream with the given identity (readUntilTag
over the decoded element sequence). -/
def readUntilTagIn (elems : List Elem) (tagId : Nat) : Option Elem :=
  elems.find? (fun e => e.eid == tagId)

/-- Possible outcomes of getSegment.  The containerFormatError
constructor gives the failure the specification describes a
representation; the code itself never produces it. -/
inductive SegmentOutcome where
  | found (segmentStart : Nat)
  | resolvedUndefined
  | containerFormatError
deriving DecidableEq

/-- getSegment: when a segment element is found, segmentStart becomes
absoluteStart + tagHeaderLength; when the input ends without one, the
code returns undefined without raising any error. -/
def getSegmentOutcome (elems : List Elem) : SegmentOutcome :=
  match readUntilTagIn elems SegmentId with
  | some seg => .found (seg.absStart + seg.headerLen)
  | none => .resolvedUndefined

/-- Counterexample for C7: on input that ends without a segment
marker, getSegment resolves to undefined; no ContainerFormatError (or
any other failure) is produced, so construction-time resolution does
not fail. -/
theorem getSegment_counterexample :
    getSegmentOutcome [] = SegmentOutcome.resolvedUndefined ∧
    SegmentOutcome.resolvedUndefined ≠ SegmentOutcome.containerFormatError := by
  exact ⟨rfl, by decide⟩

/-- C7 amended: whenever no segment-start marker element appears
before the input ends, getSegment resolves to undefined and raises no
error (so later calls are not failed by a ContainerFormatError). -/
theorem getSegment_no_error (elems : List Elem)
    (h : ∀ e ∈ elems, e.eid ≠ SegmentId) :
    getSegmentOutcome elems = SegmentOutcome.resolvedUndefined := by
  have hn : readUntilTagIn elems SegmentId = none := by
    rw [readUntilTagIn, List.find?_eq_none]
    intro e he
    simp [h e he]
  rw [getSegmentOutcome, hn]

/-- Witness for C7: a stream holding a single non-segment element ends
without a segment marker and getSegment resolves to undefined. -/
theorem getSegment_no_error_witness :
    getSegmentOutcome [Elem.mk SeekHeadId none [] 0 5] =
      SegmentOutcome.resolvedUndefined := by
  exact getSegment_no_error [Elem.mk SeekHeadId none [] 0 5] (by decide)

/-! Chapter resolver (getChapters).

The per-atom loop of the source runs backwards so each entry can read
the already-computed start of its successor:
  const start = getData(atoms[i], ChapterTimeStart) / timecodeScale / 1000000
  const end = (getData(atoms[i], ChapterTimeEnd) / timecodeScale / 1000000)
              || chapters[i + 1]?.start || await this.duration || 0
The recursion below computes the tail first, which is the same
evaluation order.  A missing time value divided by the scale is NaN in
JS and falsy in the fallback chain; it is modelled as none.  JS
division by a zero scale (Infinity) is not modelled; the theorems
about times take a nonzero scale. -/

/-- One resolved chapter entry; stop is the end time of the entry (end
is a reserved word). -/
structure ChapterEntry where
  start : Option Rat
  stop : Rat
  text : Option EData
  language : Option EData
deriving DecidableEq

/-- JS a || b over a possibly NaN or undefined number a: undefined,
NaN (both none) and 0 are falsy. -/
def jsOrR (x : Option Rat) (y : Rat) : Rat :=
  match x with
  | some v => if v == 0 then y else v
  | none => y

theorem jsOrR_none (y : Rat) : jsOrR none y = y := rfl

theorem jsOrR_some_zero (y : Rat) : jsOrR (some 0) y = y := rfl

theorem jsOrR_some_ne (v y : Rat) (h : v ≠ 0) : jsOrR (some v) y = v := by
  simp [jsOrR, h]

/-- Scaled start time of a chapter atom; none is the NaN of a missing
or non-numeric ChapterTimeStart. -/
def chapStart (scale : Rat) (a : Elem) : Option Rat :=
  match getData a ChapterTimeStartId with
  | some (.n v) => some (v / scale / 1000000)
  | _ => none

/-- Scaled declared end time of a chapter atom; none is the NaN of a
missing or non-numeric ChapterTimeEnd. -/
def chapEndDecl (scale : Rat) (a : Elem) : Option Rat :=
  match getData a ChapterTimeEndId with
  | some (.n v) => some (v / scale / 1000000)
  | _ => none

/-- The backwards loop of getChapters, with dur the awaited duration
value (none when unknown). -/
def chapterEntries (scale : Rat) (dur : Option Rat) : List Elem → List ChapterEntry
  | [] => []
  | a :: rest =>
    let tail := chapterEntries scale dur rest
    let disp := getChild a ChapterDisplayId
    { start := chapStart scale a
      stop := jsOrR (chapEndDecl scale a)
        (jsOrR (tail.head?.bind ChapterEntry.start) (jsOrR dur 0))
      text := disp.bind (fun d => getData d ChapStringId)
      language := disp.bind (fun d => getData d ChapLanguageId) } :: tail

/-- Default-edition test: some child is an EditionFlagDefault with
truthy data. -/
def hasDefaultFlag (c : Elem) : Bool :=
  c.children.any (fun cc => cc.eid == EditionFlagDefaultId && truthy cc.dat)

/-- getChapters given the fetched Chapters element: pick the first
default-flagged edition or the first edition, drop hidden atoms, run
the backwards loop.  none models the TypeError the JS code raises when
the Chapters element has children but no edition entry. -/
def getChaptersResult (copt : Option Elem) (scale : Rat) (dur : Option Rat) :
    Option (List ChapterEntry) :=
  match copt with
  | none => some []
  | some ce =>
    if ce.children.isEmpty then some []
    else
      let editions := ce.children.filter (fun c => c.eid == EditionEntryId)
      match (editions.find? hasDefaultFlag).or editions.head? with
      | none => none
      | some de =>
        some (chapterEntries scale dur (de.children.filter (fun c =>
          c.eid == ChapterAtomId && !truthy (getData c ChapterFlagHiddenId))))

/-- Chapter atom with a declared start and no declared end, for the
concrete instances below. -/
def atomS (v : Rat) : Elem :=
  Elem.mk ChapterAtomId none
    [Elem.mk ChapterTimeStartId (some (.n v)) [] 0 0] 0 0

theorem chapStart_atomS (scale v : Rat) :
    chapStart scale (atomS v) = some (v / scale / 1000000) := rfl

theorem chapEndDecl_atomS (scale v : Rat) :
    chapEndDecl scale (atomS v) = none := rfl

/-- Counterexample for C6: two visible atoms, the first with start 5
and no declared end, the second with start 0; total duration 30.  The
claim says the first entry's end is the next atom's start, 0, but the
code's falsy-zero fallback gives it the duration 30. -/
theorem chapter_end_counterexample :
    ((chapterEntries 1 (some 30) [atomS 5000000, atomS 0]).map
       ChapterEntry.start = [some 5, some 0]) ∧
    ((chapterEntries 1 (some 30) [atomS 5000000, atomS 0]).map
       ChapterEntry.stop = [30, 30]) ∧
    (30 : Rat) ≠ 0 := by
  refine ⟨?_, ?_, by norm_num⟩
  · norm_num [chapterEntries, chapStart_atomS, chapEndDecl_atomS]
  · norm_num [chapterEntries, chapStart_atomS, chapEndDecl_atomS, jsOrR,
      beq_iff_eq]

/-- C6 amended: an atom without an explicit end time gets as its end
the start of the next visible atom when that start is truthy
(a zero-valued or missing next start falls through), and otherwise the
container's total duration, or 0 when the duration is unknown or
zero — the jsOrR chain below.  For the last atom the next-entry lookup
is empty, giving the duration fallback directly. -/
theorem chapter_end_fallback (scale : Rat) (dur : Option Rat) :
    ∀ (atoms : List Elem) (i : Nat) (a : Elem),
      atoms.get? i = some a →
      getData a ChapterTimeEndId = none →
      ∃ e, (chapterEntries scale dur atoms).get? i = some e ∧
        e.stop = jsOrR (((chapterEntries scale dur atoms).get? (i+1)).bind
            ChapterEntry.start) (jsOrR dur 0) := by
  intro atoms
  induction atoms with
  | nil => intro i a ha _; simp at ha
  | cons a0 rest ih =>
    intro i a ha hend
    cases i with
    | zero =>
      obtain rfl : a0 = a := by simpa using ha
      have hdecl : chapEndDecl scale a0 = none := by rw [chapEndDecl, hend]
      refine ⟨_, rfl, ?_⟩
      show jsOrR (chapEndDecl scale a0)
          (jsOrR ((chapterEntries scale dur rest).head?.bind ChapterEntry.start)
            (jsOrR dur 0)) =
        jsOrR (((chapterEntries scale dur rest).get? 0).bind ChapterEntry.start)
          (jsOrR dur 0)
      rw [hdecl, jsOrR_none]
      cases chapterEntries scale dur rest <;> rfl
    | succ n =>
      have ha2 : rest.get? n = some a := by simpa using ha
      obtain ⟨e, he, hstop⟩ := ih n a ha2 hend
      exact ⟨e, he, hstop⟩

/-- Witness for C6, the example of the spec: three atoms with starts
0, 10, 20, no declared ends, total duration 30 resolve to ends 10, 20,
30, the first entry's end being obtained through the fallback chain of
the theorem. -/
theorem chapter_end_fallback_witness :
    (∃ e, (chapterEntries 1 (some 30)
        [atomS 0, atomS 10000000, atomS 20000000]).get? 0 = some e ∧
      e.stop = jsOrR (((chapterEntries 1 (some 30)
        [atomS 0, atomS 10000000, atomS 20000000]).get? 1).bind
          ChapterEntry.start) (jsOrR (some 30) 0)) ∧
    (chapterEntries 1 (some 30)
        [atomS 0, atomS 10000000, atomS 20000000]).map
      ChapterEntry.stop = [10, 20, 30] := by
  constructor
  · exact chapter_end_fallback 1 (some 30)
      [atomS 0, atomS 10000000, atomS 20000000] 0 (atomS 0) rfl rfl
  · norm_num [chapterEntries, chapStart_atomS, chapEndDecl_atomS, jsOrR,
      beq_iff_eq]

/-- Counterexample for C8: a container whose only edition declares its
atoms with starts 20 then 10 yields entries in that declaration order,
so the returned list is not ordered by start time ascending. -/
theorem getChapters_order_counterexample :
    (getChaptersResult
      (some (Elem.mk ChaptersId none
        [Elem.mk EditionEntryId none [atomS 20000000, atomS 10000000] 0 0]
        0 0)) 1 none).map (fun es => es.map ChapterEntry.start) =
      some [some 20, some 10] ∧
    ¬ (20 : Rat) ≤ 10 := by
  refine ⟨?_, by norm_num⟩
  norm_num [getChaptersResult, chapterEntries, chapStart_atomS,
    chapEndDecl_atomS, hasDefaultFlag, truthy, getData, getChild, atomS,
    Elem.children, Elem.eid, Elem.dat, List.filter, List.find?,
    ChaptersId, EditionEntryId, ChapterAtomId, ChapterTimeStartId,
    ChapterFlagHiddenId, EditionFlagDefaultId, chapStart, chapEndDecl,
    ChapterTimeEndId, ChapterDisplayId, jsOrR]

/-- C8 amended: the list built by getChapters keeps the atoms'
original forward declaration order — the i-th entry's start is the
scaled start of the i-th visible atom — so it is ordered by start time
ascending exactly when the visible atoms are declared with ascending
starts. -/
theorem chapterEntries_start_order (scale : Rat) (dur : Option Rat) :
    ∀ atoms : List Elem,
      (chapterEntries scale dur atoms).map ChapterEntry.start =
        atoms.map (chapStart scale) := by
  intro atoms
  induction atoms with
  | nil => rfl
  | cons a rest ih => simp [chapterEntries, ih]

/-! Session state and the fetch-by-name of the navigator
(readSeekHeadTag) together with the top-level operations getTracks,
getDuration, getChapters and getAttachments.

The byte source and decoder are modelled as a function from a stream
start offset to the sequence of elements decoded from there; a scan is
one opened stream, recorded by its start offset.  The source of
readSeekHeadTag is
  const seekHead = await this.seekHead
  const storedTag = tag.toLowerCase()
  if (!this.tagCache[storedTag] && seekHead[tag]) {
    const stream = this.getFileStream()
    const child = await this.readUntilTag(stream, EbmlTagId[tag])
    if (!child) return null
    child.absoluteStart = this.segmentStart + (seekHead[tag]?.data || 0)
    this.tagCache[storedTag] = child
    return this.tagCache[storedTag]
  }
  return this.tagCache[storedTag]
Note that the stream is opened with getFileStream() and no start
offset, and that a name absent from the seek head leads straight to
the final return of the (empty) cache entry. -/

/-- Session state: resolved seek-head index (name to stored offset
data), tag cache, memoized construction results, and the shared timing
state.  tracksMemo and durationMemo model the this.tracks and
this.duration promises; none means the operation has not run yet. -/
structure Session where
  file : Nat → List Elem
  segmentStart : Nat
  seekHeadIdx : List (String × Nat)
  tagCache : List (String × Elem)
  tracksMemo : Option (List Track)
  durationMemo : Option (Option EData)
  timecodeScale : Rat

/-- Lookup in the seek-head index object. -/
def idxGet (l : List (String × Nat)) (k : String) : Option Nat :=
  (l.find? (fun p => p.1 == k)).map Prod.snd

/-- Lookup in the tag cache object. -/
def cacheGet (l : List (String × Elem)) (k : String) : Option Elem :=
  (l.find? (fun p => p.1 == k)).map Prod.snd

/-- Result of one readSeekHeadTag call: the updated session, the
returned element, and the start offsets of the streams it opened. -/
structure Fetched where
  st : Session
  result : Option Elem
  scans : List Nat

/-- readSeekHeadTag: on a cache hit the cached element is returned
with no scan; on a cache miss with the name present in the index one
stream is opened from the top of the file (offset 0, not segmentStart
+ index[name]).  The absoluteStart of a found element is set to
segmentStart + the stored index offset and the element is cached; a
fetch that finds nothing caches nothing.  A cache miss with the name
absent from the index returns the empty cache entry with no scan. -/
def readSeekHeadTag (st : Session) (tag : String) (tagId : Nat) : Fetched :=
  let storedTag := jsToLower tag
  match cacheGet st.tagCache storedTag with
  | some v => ⟨st, some v, []⟩
  | none =>
    match idxGet st.seekHeadIdx tag with
    | none => ⟨st, none, []⟩
    | some pos =>
      match readUntilTagIn (st.file 0) tagId with
      | none => ⟨st, none, [0]⟩
      | some child =>
        let c := child.withAbsStart (st.segmentStart + pos)
        ⟨{ st with tagCache := st.tagCache ++ [(storedTag, c)] }, some c, [0]⟩

theorem readSeekHeadTag_cache_hit (st : Session) (tag : String) (tagId : Nat)
    (v : Elem) (hc : cacheGet st.tagCache (jsToLower tag) = some v) :
    readSeekHeadTag st tag tagId = ⟨st, some v, []⟩ := by
  simp [readSeekHeadTag, hc]

theorem readSeekHeadTag_idx_none (st : Session) (tag : String) (tagId : Nat)
    (hc : cacheGet st.tagCache (jsToLower tag) = none)
    (hp : idxGet st.seekHeadIdx tag = none) :
    readSeekHeadTag st tag tagId = ⟨st, none, []⟩ := by
  simp [readSeekHeadTag, hc, hp]

theorem readSeekHeadTag_not_found (st : Session) (tag : String) (tagId : Nat)
    (pos : Nat) (hc : cacheGet st.tagCache (jsToLower tag) = none)
    (hp : idxGet st.seekHeadIdx tag = some pos)
    (hf : readUntilTagIn (st.file 0) tagId = none) :
    readSeekHeadTag st tag tagId = ⟨st, none, [0]⟩ := by
  simp [readSeekHeadTag, hc, hp, hf]

theorem readSeekHeadTag_found (st : Session) (tag : String) (tagId : Nat)
    (pos : Nat) (c : Elem) (hc : cacheGet st.tagCache (jsToLower tag) = none)
    (hp : idxGet st.seekHeadIdx tag = some pos)
    (hf : readUntilTagIn (st.file 0) tagId = some c) :
    readSeekHeadTag st tag tagId =
      ⟨{ st with tagCache := st.tagCache ++
          [(jsToLower tag, c.withAbsStart (st.segmentStart + pos))] },
        some (c.withAbsStart (st.segmentStart + pos)), [0]⟩ := by
  simp [readSeekHeadTag, hc, hp, hf]

theorem readSeekHeadTag_scans_le (st : Session) (tag : String) (tagId : Nat) :
    (readSeekHeadTag st tag tagId).scans.length ≤ 1 := by
  rw [readSeekHeadTag]
  cases cacheGet st.tagCache (jsToLower tag) with
  | some v => simp
  | none =>
    cases idxGet st.seekHeadIdx tag with
    | none => simp
    | some pos =>
      cases readUntilTagIn (st.file 0) tagId with
      | none => simp
      | some c => simp

theorem cacheGet_append_self (l : List (String × Elem)) (k : String) (v : Elem)
    (h : cacheGet l k = none) : cacheGet (l ++ [(k, v)]) k = some v := by
  rw [cacheGet, List.find?_append]
  cases hf : l.find? (fun p => p.1 == k) with
  | some p => rw [cacheGet, hf] at h; simp at h
  | none => simp [List.find?]

/-- Session whose index holds Tracks at stored offset 100 with
segmentStart 50, nothing cached. -/
def c4Session : Session :=
  { file := fun _ => [Elem.mk TracksId none [] 0 0]
    segmentStart := 50
    seekHeadIdx := [("Tracks", 100)]
    tagCache := []
    tracksMemo := none
    durationMemo := none
    timecodeScale := 1 }

/-- Session whose file contains a Chapters element that the index does
not mention. -/
def c4SessionAbs : Session :=
  { file := fun _ => [Elem.mk ChaptersId none [] 0 0]
    segmentStart := 0
    seekHeadIdx := []
    tagCache := []
    tracksMemo := none
    durationMemo := none
    timecodeScale := 1 }

/-- Counterexample for C4.  First half: for an uncached name present
in the index (Tracks at offset 100, segmentStart 50) the single stream
is opened at offset 0, not at segmentStart + index[name] = 150.
Second half: for an uncached name absent from the index, no stream is
opened at all and the fetch returns the empty cache entry, even though
a scan of the body would have found the element. -/
theorem readSeekHeadTag_counterexample :
    ((readSeekHeadTag c4Session "Tracks" TracksId).scans = [0] ∧
     ([0] : List Nat) ≠ [c4Session.segmentStart + 100]) ∧
    ((readSeekHeadTag c4SessionAbs "Chapters" ChaptersId).scans = [] ∧
     (readSeekHeadTag c4SessionAbs "Chapters" ChaptersId).result = none ∧
     readUntilTagIn (c4SessionAbs.file 0) ChaptersId =
       some (Elem.mk ChaptersId none [] 0 0)) := by
  exact ⟨⟨rfl, by decide⟩, rfl, rfl, rfl⟩

/-- C4 amended: for every name not yet cached, if the name is present
in the resolved index the fetch opens one stream from the top of the
file (offset 0) and returns the first element there whose identity
matches, with absoluteStart set to segmentStart + index[name]; if the
name is absent from the index the fetch performs no scan and returns
the empty cache entry. -/
theorem readSeekHeadTag_scan_behavior (st : Session) (tag : String)
    (tagId : Nat) (hc : cacheGet st.tagCache (jsToLower tag) = none) :
    (idxGet st.seekHeadIdx tag = none →
      readSeekHeadTag st tag tagId = ⟨st, none, []⟩) ∧
    (∀ pos, idxGet st.seekHeadIdx tag = some pos →
      (readSeekHeadTag st tag tagId).scans = [0] ∧
      (readSeekHeadTag st tag tagId).result =
        (readUntilTagIn (st.file 0) tagId).map
          (fun c => c.withAbsStart (st.segmentStart + pos))) := by
  constructor
  · intro hn
    exact readSeekHeadTag_idx_none st tag tagId hc hn
  · intro pos hp
    cases hf : readUntilTagIn (st.file 0) tagId with
    | none => rw [readSeekHeadTag_not_found st tag tagId pos hc hp hf]
              exact ⟨rfl, rfl⟩
    | some c => rw [readSeekHeadTag_found st tag tagId pos c hc hp hf]
                exact ⟨rfl, rfl⟩

/-- Witness for C4 amended: the fetch on the concrete indexed session
opens its single stream at offset 0 and stamps the found element with
absoluteStart 150. -/
theorem readSeekHeadTag_scan_behavior_witness :
    (readSeekHeadTag c4Session "Tracks" TracksId).scans = [0] ∧
    (readSeekHeadTag c4Session "Tracks" TracksId).result =
      (readUntilTagIn (c4Session.file 0) TracksId).map
        (fun c => c.withAbsStart (c4Session.segmentStart + 100)) := by
  exact (readSeekHeadTag_scan_behavior c4Session "Tracks" TracksId rfl).2 100 rfl

/-! The four top-level operations, each returning the updated session,
its result, and the number of underlying scans it triggered.
getTracks and getDuration return their memo when present and memoize
their result otherwise (the this.tracks and this.duration promises);
getChapters and getAttachments recompute from the (tag-cached) element
on every call. -/

/-- Result of one operation: updated session, result, scan count. -/
structure OpResult (α : Type) where
  st : Session
  result : α
  scans : Nat

/-- getTracks: memoized; otherwise fetch the Tracks element and build
the track list. -/
def getTracksOp (st : Session) : OpResult (List Track) :=
  match st.tracksMemo with
  | some t => ⟨st, t, 0⟩
  | none =>
    let f := readSeekHeadTag st "Tracks" TracksId
    let result := getTracksResult f.result
    ⟨{ f.st with tracksMemo := some result }, result, f.scans.length⟩

/-- Duration value extracted from the fetched Info element: undefined
for a missing or childless Info, else the data of its Duration
child. -/
def getDurationResult (info : Option Elem) : Option EData :=
  match info with
  | none => none
  | some i => if i.children.isEmpty then none else getData i DurationId

/-- getDuration: memoized; otherwise fetch Info and read its Duration
child. -/
def getDurationOp (st : Session) : OpResult (Option EData) :=
  match st.durationMemo with
  | some d => ⟨st, d, 0⟩
  | none =>
    let f := readSeekHeadTag st "Info" InfoId
    let result := getDurationResult f.result
    ⟨{ f.st with durationMemo := some result }, result, f.scans.length⟩

/-- One attachment entry of getAttachments. -/
structure Attachment where
  filename : Option EData
  mimetype : Option EData
  dat : Option EData
deriving DecidableEq

/-- Attachment list built from the fetched Attachments element; the
JS || [] yields the empty list when the fetch returned nothing. -/
def getAttachmentsResult (a : Option Elem) : List Attachment :=
  match a with
  | none => []
  | some e => e.children.map (fun c =>
      ⟨getData c FileNameId, getData c FileMimeTypeId, getData c FileDataId⟩)

/-- getAttachments: not memoized; recomputes from the fetched element
each call. -/
def getAttachmentsOp (st : Session) : OpResult (List Attachment) :=
  let f := readSeekHeadTag st "Attachments" AttachmentsId
  ⟨f.st, getAttachmentsResult f.result, f.scans.length⟩

/-- The await of the this.duration construction promise inside
getChapters; a session whose duration has not resolved yet, or whose
duration is not numeric, is modelled as unknown duration. -/
def awaitDuration (st : Session) : Option Rat :=
  match st.durationMemo with
  | some (some (.n v)) => some v
  | _ => none

/-- The local timecodeScale of getChapters: the session scale when
truthy, otherwise a dedicated scan for a TimecodeScale element
(whose absent-data NaN case is out of the guarded theorems). -/
def chaptersScale (st : Session) : Rat :=
  if st.timecodeScale = 0 then
    match (readUntilTagIn (st.file 0) TimecodeScaleId).bind Elem.dat with
    | some (.n v) => v / 1000000
    | _ => 0
  else st.timecodeScale

/-- getChapters: not memoized; fetches the Chapters element, resolves
the scale (an extra scan only when the session scale is falsy), awaits
the duration and runs the chapter loop. -/
def getChaptersOp (st : Session) : OpResult (Option (List ChapterEntry)) :=
  let f := readSeekHeadTag st "Chapters" ChaptersId
  let scaleScans : Nat := if st.timecodeScale = 0 then 1 else 0
  ⟨f.st, getChaptersResult f.result (chaptersScale st) (awaitDuration st),
    f.scans.length + scaleScans⟩

/-- Session whose index names a Chapters element that the file does
not contain; the failed fetch caches nothing. -/
def c9Bad : Session :=
  { file := fun _ => []
    segmentStart := 0
    seekHeadIdx := [("Chapters", 0)]
    tagCache := []
    tracksMemo := none
    durationMemo := none
    timecodeScale := 1 }

/-- Counterexample for C9: on a session whose index names a Chapters
element missing from the file, the first getChapters call triggers one
underlying scan and the second call triggers another (two scans for
the operation, and the first call's outcome was not memoized), yet
both calls return the same result. -/
theorem ops_rescan_counterexample :
    (getChaptersOp c9Bad).scans = 1 ∧
    (getChaptersOp (getChaptersOp c9Bad).st).scans = 1 ∧
    (1 : Nat) + 1 > 1 := by
  refine ⟨?_, ?_, by norm_num⟩
  · show (if c9Bad.timecodeScale = 0 then
        (1 : Nat) + 1 else 1 + 0) = 1
    norm_num [c9Bad]
  · show (if (getChaptersOp c9Bad).st.timecodeScale = 0 then
        (1 : Nat) + 1 else 1 + 0) = 1
    norm_num [getChaptersOp, readSeekHeadTag, c9Bad, cacheGet, idxGet,
      readUntilTagIn, List.find?]

theorem getTracksOp_idem (st : Session) :
    (getTracksOp (getTracksOp st).st).result = (getTracksOp st).result ∧
    (getTracksOp st).scans ≤ 1 ∧
    (getTracksOp (getTracksOp st).st).scans = 0 := by
  cases hm : st.tracksMemo with
  | some t => simp [getTracksOp, hm]
  | none =>
    have h1 : getTracksOp st =
        ⟨{ (readSeekHeadTag st "Tracks" TracksId).st with
            tracksMemo := some (getTracksResult
              (readSeekHeadTag st "Tracks" TracksId).result) },
          getTracksResult (readSeekHeadTag st "Tracks" TracksId).result,
          (readSeekHeadTag st "Tracks" TracksId).scans.length⟩ := by
      simp [getTracksOp, hm]
    rw [h1]
    exact ⟨by simp [getTracksOp], readSeekHeadTag_scans_le st "Tracks" TracksId,
      by simp [getTracksOp]⟩

theorem getDurationOp_idem (st : Session) :
    (getDurationOp (getDurationOp st).st).result = (getDurationOp st).result ∧
    (getDurationOp st).scans ≤ 1 ∧
    (getDurationOp (getDurationOp st).st).scans = 0 := by
  cases hm : st.durationMemo with
  | some d => simp [getDurationOp, hm]
  | none =>
    have h1 : getDurationOp st =
        ⟨{ (readSeekHeadTag st "Info" InfoId).st with
            durationMemo := some (getDurationResult
              (readSeekHeadTag st "Info" InfoId).result) },
          getDurationResult (readSeekHeadTag st "Info" InfoId).result,
          (readSeekHeadTag st "Info" InfoId).scans.length⟩ := by
      simp [getDurationOp, hm]
    rw [h1]
    exact ⟨by simp [getDurationOp], readSeekHeadTag_scans_le st "Info" InfoId,
      by simp [getDurationOp]⟩

theorem getAttachmentsOp_idem (st : Session)
    (hatt : idxGet st.seekHeadIdx "Attachments" = none ∨
      (readUntilTagIn (st.file 0) AttachmentsId).isSome = true) :
    (getAttachmentsOp (getAttachmentsOp st).st).result =
      (getAttachmentsOp st).result ∧
    (getAttachmentsOp st).scans ≤ 1 ∧
    (getAttachmentsOp (getAttachmentsOp st).st).scans = 0 := by
  cases hc : cacheGet st.tagCache (jsToLower "Attachments") with
  | some v =>
    have h1 := readSeekHeadTag_cache_hit st "Attachments" AttachmentsId v hc
    have ho : getAttachmentsOp st = ⟨st, getAttachmentsResult (some v), 0⟩ := by
      simp [getAttachmentsOp, h1]
    simp [ho]
  | none =>
    cases hp : idxGet st.seekHeadIdx "Attachments" with
    | none =>
      have h1 := readSeekHeadTag_idx_none st "Attachments" AttachmentsId hc hp
      have ho : getAttachmentsOp st = ⟨st, getAttachmentsResult none, 0⟩ := by
        simp [getAttachmentsOp, h1]
      simp [ho]
    | some pos =>
      have hfound : (readUntilTagIn (st.file 0) AttachmentsId).isSome = true := by
        rcases hatt with h | h
        · rw [h] at hp; cases hp
        · exact h
      obtain ⟨c, hcfind⟩ := Option.isSome_iff_exists.mp hfound
      have h1 := readSeekHeadTag_found st "Attachments" AttachmentsId pos c hc
        hp hcfind
      have ho : getAttachmentsOp st =
          ⟨{ st with tagCache := st.tagCache ++ [(jsToLower "Attachments",
              c.withAbsStart (st.segmentStart + pos))] },
            getAttachmentsResult (some (c.withAbsStart (st.segmentStart + pos))),
            1⟩ := by
        simp [getAttachmentsOp, h1]
      have hc2 : cacheGet (st.tagCache ++ [(jsToLower "Attachments",
          c.withAbsStart (st.segmentStart + pos))]) (jsToLower "Attachments") =
          some (c.withAbsStart (st.segmentStart + pos)) :=
        cacheGet_append_self _ _ _ hc
      have h2 := readSeekHeadTag_cache_hit
        { st with tagCache := st.tagCache ++ [(jsToLower "Attachments",
            c.withAbsStart (st.segmentStart + pos))] }
        "Attachments" AttachmentsId (c.withAbsStart (st.segmentStart + pos)) hc2
      have ho2 : getAttachmentsOp
          { st with tagCache := st.tagCache ++ [(jsToLower "Attachments",
              c.withAbsStart (st.segmentStart + pos))] } =
          ⟨{ st with tagCache := st.tagCache ++ [(jsToLower "Attachments",
              c.withAbsStart (st.segmentStart + pos))] },
            getAttachmentsResult (some (c.withAbsStart (st.segmentStart + pos))),
            0⟩ := by
        simp [getAttachmentsOp, h2]
      simp [ho, ho2]

theorem getChaptersOp_idem (st : Session) (hscale : st.timecodeScale ≠ 0)
    (hchap : idxGet st.seekHeadIdx "Chapters" = none ∨
      (readUntilTagIn (st.file 0) ChaptersId).isSome = true) :
    (getChaptersOp (getChaptersOp st).st).result = (getChaptersOp st).result ∧
    (getChaptersOp st).scans ≤ 1 ∧
    (getChaptersOp (getChaptersOp st).st).scans = 0 := by
  cases hc : cacheGet st.tagCache (jsToLower "Chapters") with
  | some v =>
    have h1 := readSeekHeadTag_cache_hit st "Chapters" ChaptersId v hc
    have ho : getChaptersOp st = ⟨st, getChaptersResult (some v)
        (chaptersScale st) (awaitDuration st), 0⟩ := by
      simp [getChaptersOp, h1, hscale]
    simp [ho]
  | none =>
    cases hp : idxGet st.seekHeadIdx "Chapters" with
    | none =>
      have h1 := readSeekHeadTag_idx_none st "Chapters" ChaptersId hc hp
      have ho : getChaptersOp st = ⟨st, getChaptersResult none
          (chaptersScale st) (awaitDuration st), 0⟩ := by
        simp [getChaptersOp, h1, hscale]
      simp [ho]
    | some pos =>
      have hfound : (readUntilTagIn (st.file 0) ChaptersId).isSome = true := by
        rcases hchap with h | h
        · rw [h] at hp; cases hp
        · exact h
      obtain ⟨c, hcfind⟩ := Option.isSome_iff_exists.mp hfound
      have h1 := readSeekHeadTag_found st "Chapters" ChaptersId pos c hc hp hcfind
      have ho : getChaptersOp st =
          ⟨{ st with tagCache := st.tagCache ++ [(jsToLower "Chapters",
              c.withAbsStart (st.segmentStart + pos))] },
            getChaptersResult (some (c.withAbsStart (st.segmentStart + pos)))
              (chaptersScale st) (awaitDuration st),
            1⟩ := by
        simp [getChaptersOp, h1, hscale]
      have hc2 : cacheGet (st.tagCache ++ [(jsToLower "Chapters",
          c.withAbsStart (st.segmentStart + pos))]) (jsToLower "Chapters") =
          some (c.withAbsStart (st.segmentStart + pos)) :=
        cacheGet_append_self _ _ _ hc
      have h2 := readSeekHeadTag_cache_hit
        { st with tagCache := st.tagCache ++ [(jsToLower "Chapters",
            c.withAbsStart (st.segmentStart + pos))] }
        "Chapters" ChaptersId (c.withAbsStart (st.segmentStart + pos)) hc2
      have ho2 : getChaptersOp
          { st with tagCache := st.tagCache ++ [(jsToLower "Chapters",
              c.withAbsStart (st.segmentStart + pos))] } =
          ⟨{ st with tagCache := st.tagCache ++ [(jsToLower "Chapters",
              c.withAbsStart (st.segmentStart + pos))] },
            getChaptersResult (some (c.withAbsStart (st.segmentStart + pos)))
              (chaptersScale st) (awaitDuration st),
            0⟩ := by
        simp [getChaptersOp, h2, hscale, chaptersScale, awaitDuration]
      simp [ho, ho2]

/-- C9 amended: on a session whose timecode scale is truthy and whose
indexed Chapters and Attachments elements are actually present in the
file when indexed, each of the four operations returns the same result
on a second call and the pair of calls triggers at most one underlying
scan (tracks and duration memoize their result; chapters and
attachments recompute from the cached element, which caches only
successful fetches — hence the presence hypotheses). -/
theorem ops_memoized (st : Session)
    (hscale : st.timecodeScale ≠ 0)
    (hchap : idxGet st.seekHeadIdx "Chapters" = none ∨
      (readUntilTagIn (st.file 0) ChaptersId).isSome = true)
    (hatt : idxGet st.seekHeadIdx "Attachments" = none ∨
      (readUntilTagIn (st.file 0) AttachmentsId).isSome = true) :
    ((getTracksOp (getTracksOp st).st).result = (getTracksOp st).result ∧
      (getTracksOp st).scans ≤ 1 ∧
      (getTracksOp (getTracksOp st).st).scans = 0) ∧
    ((getDurationOp (getDurationOp st).st).result = (getDurationOp st).result ∧
      (getDurationOp st).scans ≤ 1 ∧
      (getDurationOp (getDurationOp st).st).scans = 0) ∧
    ((getChaptersOp (getChaptersOp st).st).result = (getChaptersOp st).result ∧
      (getChaptersOp st).scans ≤ 1 ∧
      (getChaptersOp (getChaptersOp st).st).scans = 0) ∧
    ((getAttachmentsOp (getAttachmentsOp st).st).result =
        (getAttachmentsOp st).result ∧
      (getAttachmentsOp st).scans ≤ 1 ∧
      (getAttachmentsOp (getAttachmentsOp st).st).scans = 0) :=
  ⟨getTracksOp_idem st, getDurationOp_idem st,
   getChaptersOp_idem st hscale hchap, getAttachmentsOp_idem st hatt⟩

/-- Session for the C9 witness: every name indexed and present. -/
def c9Good : Session :=
  { file := fun _ => [Elem.mk TracksId none [] 0 0, Elem.mk InfoId none [] 0 0,
      Elem.mk ChaptersId none [] 0 0, Elem.mk AttachmentsId none [] 0 0]
    segmentStart := 0
    seekHeadIdx := [("Tracks", 1), ("Info", 2), ("Chapters", 3),
      ("Attachments", 4)]
    tagCache := []
    tracksMemo := none
    durationMemo := none
    timecodeScale := 1 }

/-- Witness for C9 amended, on the concrete well-formed session. -/
theorem ops_memoized_witness :
    ((getTracksOp (getTracksOp c9Good).st).result =
        (getTracksOp c9Good).result ∧
      (getTracksOp c9Good).scans ≤ 1 ∧
      (getTracksOp (getTracksOp c9Good).st).scans = 0) ∧
    ((getDurationOp (getDurationOp c9Good).st).result =
        (getDurationOp c9Good).result ∧
      (getDurationOp c9Good).scans ≤ 1 ∧
      (getDurationOp (getDurationOp c9Good).st).scans = 0) ∧
    ((getChaptersOp (getChaptersOp c9Good).st).result =
        (getChaptersOp c9Good).result ∧
      (getChaptersOp c9Good).scans ≤ 1 ∧
      (getChaptersOp (getChaptersOp c9Good).st).scans = 0) ∧
    ((getAttachmentsOp (getAttachmentsOp c9Good).st).result =
        (getAttachmentsOp c9Good).result ∧
      (getAttachmentsOp c9Good).scans ≤ 1 ∧
      (getAttachmentsOp (getAttachmentsOp c9Good).st).scans = 0) := by
  exact ops_memoized c9Good (by norm_num [c9Good]) (Or.inr (by decide))
    (Or.inr (by decide))

end MatroskaMeta
